import Mathlib

/-!
Shallow embedding of `FineTune_Dino2/datasets.py` (repository m15kh/U_NET).

The file models, faithfully to the Python source:
  * the mask-binarization step of `SegmentationDataset.__getitem__`
    (lines 97-100: `im = mask > 0; mask[im] = 255; mask[np.logical_not(im)] = 0`),
  * the albumentations pipelines built by `train_transforms` / `valid_transforms`,
    at the level of application probabilities, random-parameter draws and
    spatial dimensions (pixel-level effects of the external augmentation
    library are recorded as an applied-step trace),
  * `get_images` (the filesystem is passed explicitly as the lists of paths
    the four `glob.glob` calls return),
  * `collate_fn` over a `torch.Tensor` model (shape + flat data),
  * `SegmentationDataset` with explicit state passing for `__getitem__`.
-/

namespace Datasets

/-! ### Mask binarizer (datasets.py lines 97-100)

A decoded RGB mask is a list of pixels, each pixel a triple of channel
values (`float32` in the source, modelled as `ℚ`).  numpy's `mask > 0`
is element-wise over the `(H, W, 3)` array, so the boolean test and the
two masked writes act on every channel value independently. -/

/-- One RGB pixel: the three channel values. -/
abbrev Px : Type := ℚ × ℚ × ℚ

/-- Element-wise boolean array `im = mask > 0` restricted to one pixel. -/
def pxGt (p : Px) : Bool × Bool × Bool :=
  (decide (0 < p.1), decide (0 < p.2.1), decide (0 < p.2.2))

/-- Masked write `mask[im] = v`: set the channels whose flag is true to `v`. -/
def setWhere (b : Bool × Bool × Bool) (v : ℚ) (p : Px) : Px :=
  (if b.1 then v else p.1,
   if b.2.1 then v else p.2.1,
   if b.2.2 then v else p.2.2)

/-- Masked write `mask[np.logical_not(im)] = v`: set the channels whose flag
is false to `v`. -/
def setWhereNot (b : Bool × Bool × Bool) (v : ℚ) (p : Px) : Px :=
  (if b.1 then p.1 else v,
   if b.2.1 then p.2.1 else v,
   if b.2.2 then p.2.2 else v)

/-- Lines 98-100 of datasets.py: compute the element-wise boolean array
`im = mask > 0`, write 255 at the true positions, then write 0 at the
complementary positions. -/
def binarize (mask : List Px) : List Px :=
  let im := mask.map pxGt
  let m1 := List.zipWith (fun p b => setWhere b 255 p) mask im
  List.zipWith (fun p b => setWhereNot b 0 p) m1 im

/-- The element-wise threshold each channel value goes through. -/
def binCh (v : ℚ) : ℚ := if 0 < v then 255 else 0

/-- The per-pixel image of the element-wise threshold. -/
def binPx (p : Px) : Px := (binCh p.1, binCh p.2.1, binCh p.2.2)

/-- The binarization the spec sentence describes, taken literally at pixel
level: a pixel that is 0 across all three channels maps to 0, every other
pixel maps to 255 (in all channels). -/
def specBinarizePixelwise (mask : List Px) : List Px :=
  mask.map (fun p => if p = ((0 : ℚ), (0 : ℚ), (0 : ℚ)) then (0, 0, 0) else (255, 255, 255))

theorem binarize_eq_map (mask : List Px) : binarize mask = mask.map binPx := by
  induction mask with
  | nil => rfl
  | cons p rest ih =>
    simp only [binarize, List.map_cons, List.zipWith_cons_cons] at *
    refine congrArg₂ _ ?_ ih
    obtain ⟨r, g, b⟩ := p
    simp only [pxGt, setWhere, setWhereNot, binPx, binCh]
    by_cases hr : 0 < r <;> by_cases hg : 0 < g <;> by_cases hb : 0 < b <;>
      simp [hr, hg, hb]

theorem binCh_mem (v : ℚ) : binCh v = 0 ∨ binCh v = 255 := by
  unfold binCh; split <;> simp

theorem binCh_idem (v : ℚ) : binCh (binCh v) = binCh v := by
  rcases binCh_mem v with h | h <;> rw [h] <;> simp [binCh]

theorem binCh_fixed (v : ℚ) (h : v = 0 ∨ v = 255) : binCh v = v := by
  rcases h with h | h <;> simp [h, binCh]

/-! ### Augmentation pipelines (datasets.py lines 26-66)

An albumentations transform is modelled by its application probability
`p`, its `always_apply` flag, the number of uniform draws its random
parameters consume, the map from those draws to the parameters, and its
effect on the spatial dimensions of image and mask.  Randomness is an
explicit stream `rng : ℕ → ℚ` of uniform draws in `[0, 1)` together with
a cursor; a transform first consumes one draw for its probability check
(`random.random() < p or always_apply`), then, when it fires, its
parameter draws.  The pixel-level effect of a fired transform is owned by
the external library and is recorded as a trace entry `(name, params)`. -/

/-- One fired transform, with the parameters it drew. -/
structure Step where
  name : String
  params : List ℚ
deriving DecidableEq

/-- Descriptor of one albumentations transform. -/
structure Transform where
  name : String
  p : ℚ
  alwaysApply : Bool
  nParams : ℕ
  mkParams : (ℕ → ℚ) → List ℚ
  applyDims : ℕ × ℕ → ℕ × ℕ
  dual : Bool

/-- Joint state of the (image, mask) pair under the pipeline: spatial
dimensions of each, plus the trace of fired transforms (shared between
image and mask, since albumentations applies one parameter draw to both). -/
structure AugState where
  imgDims : ℕ × ℕ
  maskDims : ℕ × ℕ
  applied : List Step
deriving DecidableEq

/-- Apply one transform: consume the probability draw; when the transform
fires, consume its parameter draws, update the dimensions (of the mask too
when the transform is dual) and append the step to the trace. -/
def applyStep (t : Transform) (rng : ℕ → ℚ) : AugState × ℕ → AugState × ℕ :=
  fun sk =>
    if t.alwaysApply = true ∨ rng sk.2 < t.p then
      (⟨t.applyDims sk.1.imgDims,
        if t.dual then t.applyDims sk.1.maskDims else sk.1.maskDims,
        sk.1.applied ++ [⟨t.name, t.mkParams (fun i => rng (sk.2 + 1 + i))⟩]⟩,
       sk.2 + 1 + t.nParams)
    else (sk.1, sk.2 + 1)

/-- `A.Compose`: apply the transforms in sequence. -/
def applyPipeline (ts : List Transform) (rng : ℕ → ℚ) (sk : AugState × ℕ) :
    AugState × ℕ :=
  ts.foldl (fun acc t => applyStep t rng acc) sk

/-- `A.Resize(height, width, always_apply=True)`: forces both image and mask
to exactly `(height, width)`; deterministic parameters. -/
def resizeT (height width : ℕ) : Transform :=
  { name := "Resize", p := 1, alwaysApply := true, nParams := 0,
    mkParams := fun _ => [(height : ℚ), (width : ℚ)],
    applyDims := fun _ => (height, width), dual := true }

/-- `A.PadIfNeeded(min_height, min_width, position="center", value=0,
mask_value=0)`: library default `p = 1.0`; pads each spatial dimension up
to the minimum; deterministic parameters. -/
def padIfNeededT (minHeight minWidth : ℕ) : Transform :=
  { name := "PadIfNeeded", p := 1, alwaysApply := false, nParams := 0,
    mkParams := fun _ => [(minHeight : ℚ), (minWidth : ℚ)],
    applyDims := fun d => (max d.1 minHeight, max d.2 minWidth), dual := true }

/-- `A.HorizontalFlip(p=0.5)`: no random parameters, dimensions unchanged. -/
def horizontalFlipT : Transform :=
  { name := "HorizontalFlip", p := 1/2, alwaysApply := false, nParams := 0,
    mkParams := fun _ => [], applyDims := fun d => d, dual := true }

/-- `A.RandomBrightnessContrast(p=0.2)`: library defaults
`brightness_limit = contrast_limit = 0.2`; when fired it draws
`alpha = 1 + uniform(-0.2, 0.2)` and `beta = uniform(-0.2, 0.2)`; image
only, dimensions unchanged. -/
def randomBrightnessContrastT : Transform :=
  { name := "RandomBrightnessContrast", p := 1/5, alwaysApply := false, nParams := 2,
    mkParams := fun d => [1 + (-(1/5) + (2/5) * d 0), -(1/5) + (2/5) * d 1],
    applyDims := fun d => d, dual := false }

/-- `A.Rotate(limit=25)`: the call site passes only `limit`, so the library
defaults `p = 0.5` and `always_apply = False` apply; when fired it draws
`angle = uniform(-limit, limit)`; with the default `crop_border=False` the
spatial dimensions are unchanged. -/
def rotateT (limit : ℚ) : Transform :=
  { name := "Rotate", p := 1/2, alwaysApply := false, nParams := 1,
    mkParams := fun d => [-limit + 2 * limit * d 0],
    applyDims := fun d => d, dual := true }

/-- `A.Normalize(mean=MEAN, std=STD, max_pixel_value=255.)`: library default
`p = 1.0`; image only, deterministic, dimensions unchanged. -/
def normalizeT : Transform :=
  { name := "Normalize", p := 1, alwaysApply := false, nParams := 0,
    mkParams := fun _ => [], applyDims := fun d => d, dual := false }

/-- `train_transforms(img_size)` (datasets.py lines 26-46): `img_size` is a
`(width, height)` pair, `A.Resize(img_size[1], img_size[0])` resizes to
`(height, width)` and `A.PadIfNeeded` pads to `(height+4, width+4)`. -/
def train_transforms (img_size : ℕ × ℕ) : List Transform :=
  [resizeT img_size.2 img_size.1,
   padIfNeededT (img_size.2 + 4) (img_size.1 + 4),
   horizontalFlipT,
   randomBrightnessContrastT,
   rotateT 25,
   normalizeT]

/-- `valid_transforms(img_size)` (datasets.py lines 49-66). -/
def valid_transforms (img_size : ℕ × ℕ) : List Transform :=
  [resizeT img_size.2 img_size.1,
   padIfNeededT (img_size.2 + 4) (img_size.1 + 4),
   normalizeT]

/-- A draw stream whose values all lie in `[0, 1)`, as `random.random()`
produces. -/
def ValidRng (rng : ℕ → ℚ) : Prop := ∀ i, 0 ≤ rng i ∧ rng i < 1

theorem applyStep_dims_id (t : Transform) (ht : ∀ d, t.applyDims d = d)
    (rng : ℕ → ℚ) (sk : AugState × ℕ) :
    (applyStep t rng sk).1.imgDims = sk.1.imgDims ∧
    (applyStep t rng sk).1.maskDims = sk.1.maskDims := by
  unfold applyStep
  split
  · constructor
    · exact ht _
    · by_cases hd : t.dual <;> simp [hd, ht]
  · exact ⟨rfl, rfl⟩

theorem applyPipeline_dims_id (ts : List Transform)
    (hts : ∀ t ∈ ts, ∀ d, t.applyDims d = d) (rng : ℕ → ℚ) (sk : AugState × ℕ) :
    (applyPipeline ts rng sk).1.imgDims = sk.1.imgDims ∧
    (applyPipeline ts rng sk).1.maskDims = sk.1.maskDims := by
  induction ts generalizing sk with
  | nil => exact ⟨rfl, rfl⟩
  | cons t rest ih =>
    have hstep := applyStep_dims_id t (hts t (by simp)) rng sk
    have hrest := ih (fun t' ht' => hts t' (by simp [ht'])) (applyStep t rng sk)
    simp only [applyPipeline, List.foldl_cons] at *
    exact ⟨hrest.1.trans hstep.1, hrest.2.trans hstep.2⟩

/-! ### File discoverer (datasets.py lines 13-23)

`glob.glob` queries the filesystem; it is modelled by passing the raw
(unordered) result of each of the four glob calls explicitly.  Python's
`list.sort()` on strings is a stable comparison sort under lexicographic
string order, modelled by `List.insertionSort` under `String` order. -/

/-- Python `list.sort()` on path strings. -/
def sortPaths (paths : List String) : List String :=
  List.insertionSort (· ≤ ·) paths

/-- `get_images(root_path)`: sort each of the four glob results and return
them as (train images, train masks, valid images, valid masks). -/
def get_images (train_images train_masks valid_images valid_masks : List String) :
    List String × List String × List String × List String :=
  (sortPaths train_images, sortPaths train_masks,
   sortPaths valid_images, sortPaths valid_masks)

/-! ### Batch collator (datasets.py lines 115-120)

A `torch.Tensor` is its shape together with its flat (row-major) data.
`torch.stack(ts, dim=0)` requires a non-empty list of tensors of equal
shape; it errors on an empty list and on any shape mismatch. -/

/-- Model of a torch tensor: shape and flat row-major contents. -/
structure Tensor where
  shape : List ℕ
  data : List ℚ
deriving DecidableEq

/-- `torch.stack(ts, dim=0)`: `none` models the runtime error raised on an
empty list or on mismatched shapes. -/
def Tensor.stack (ts : List Tensor) : Option Tensor :=
  match ts with
  | [] => none
  | t :: rest =>
    if rest.all (fun r => r.shape == t.shape) then
      some ⟨ts.length :: t.shape, (ts.map Tensor.data).flatten⟩
    else none

/-- `collate_fn(inputs)`: stack the first components under key 0 and the
second components under key 1 (the dict with keys 0 and 1 is modelled as an
ordered pair); any stacking error propagates. -/
def collate_fn (inputs : List (Tensor × Tensor)) : Option (Tensor × Tensor) :=
  match Tensor.stack (inputs.map Prod.fst), Tensor.stack (inputs.map Prod.snd) with
  | some b0, some b1 => some (b0, b1)
  | _, _ => none

theorem stack_some_shape_eq {ts : List Tensor} {t : Tensor}
    (h : Tensor.stack ts = some t) :
    ∀ a ∈ ts, ∀ b ∈ ts, a.shape = b.shape := by
  match ts with
  | [] => simp [Tensor.stack] at h
  | hd :: rest =>
    simp only [Tensor.stack] at h
    split at h
    · next hall =>
      have hall' : ∀ r ∈ rest, r.shape = hd.shape := by
        intro r hr
        have := List.all_eq_true.mp hall r hr
        exact beq_iff_eq.mp this
      intro a ha b hb
      have h1 : a.shape = hd.shape := by
        rcases List.mem_cons.mp ha with h' | h'
        · rw [h']
        · exact hall' a h'
      have h2 : b.shape = hd.shape := by
        rcases List.mem_cons.mp hb with h' | h'
        · rw [h']
        · exact hall' b h'
      rw [h1, h2]
    · exact absurd h (by simp)

theorem stack_of_all_shape {ts : List Tensor} {s : List ℕ}
    (hne : ts ≠ []) (hsh : ∀ t ∈ ts, t.shape = s) :
    Tensor.stack ts = some ⟨ts.length :: s, (ts.map Tensor.data).flatten⟩ := by
  match ts with
  | [] => exact absurd rfl hne
  | hd :: rest =>
    have hhd : hd.shape = s := hsh hd (by simp)
    simp only [Tensor.stack]
    rw [if_pos]
    · rw [hhd]
    · refine List.all_eq_true.mpr fun r hr => ?_
      exact beq_iff_eq.mpr ((hsh r (by simp [hr])).trans hhd.symm)

/-! ### Segmentation dataset (datasets.py lines 68-113)

`cv2.imread` is modelled by an explicit filesystem `String → Option Img`
(`none` models an unreadable file: `imread` returns `None` and the
following `cvtColor` raises).  A decoded image is its spatial dimensions
plus its pixels in the BGR channel order `imread` produces. -/

/-- A decoded image: spatial dimensions and pixels (BGR channel order). -/
structure Img where
  height : ℕ
  width : ℕ
  pix : List Px

/-- `cv2.cvtColor(_, cv2.COLOR_BGR2RGB)`: swap the first and third channel
of every pixel. -/
def bgr2rgb (pix : List Px) : List Px :=
  pix.map (fun p => (p.2.2, p.2.1, p.1))

/-- Modelled from the spec: `utils.set_class_values` is imported from
`utils.py`, which is not under src/.  Per the spec, it returns the list of
indices into `all_classes` of the entries of `classes_to_train`, in the
order of `classes_to_train`. -/
def set_class_values (all_classes classes_to_train : List String) : List ℕ :=
  classes_to_train.map (fun c => all_classes.indexOf c)

/-- `SegmentationDataset`: the six constructor arguments stored as fields,
plus `class_values` computed at construction. -/
structure SegmentationDataset where
  image_paths : List String
  mask_paths : List String
  tfms : List Transform
  label_colors_list : List Px
  all_classes : List String
  classes_to_train : List String
  class_values : List ℕ

/-- `SegmentationDataset.__init__`: store the arguments and compute
`class_values` once via `set_class_values`; no validation of any kind (in
particular no length comparison between `image_paths` and `mask_paths`). -/
def mkSegmentationDataset (image_paths mask_paths : List String)
    (tfms : List Transform) (label_colors_list : List Px)
    (classes_to_train all_classes : List String) : SegmentationDataset :=
  { image_paths := image_paths
    mask_paths := mask_paths
    tfms := tfms
    label_colors_list := label_colors_list
    all_classes := all_classes
    classes_to_train := classes_to_train
    class_values := set_class_values all_classes classes_to_train }

/-- `SegmentationDataset.__len__`: the length of the image path list alone. -/
def SegmentationDataset.len (d : SegmentationDataset) : ℕ :=
  d.image_paths.length

/-- The distinct runtime errors `__getitem__` can raise, in source order:
an out-of-range list index (`IndexError`), or a failed decode of the image
or the mask file (`cv2.error` from `cvtColor` on `None`). -/
inductive ItemError where
  | indexError
  | imageReadError
  | maskReadError
deriving DecidableEq

/-- The value `__getitem__` returns: the channel-first image tensor shape
`[3, H, W]`, the 2D label shape `[H, W]` (the spec gives `get_label_mask`
output the height/width of the augmented mask), the binarized mask content
fed into the pipeline, and the trace of fired transforms (the pixel-level
output of the external augmentation library is not modelled). -/
structure ItemResult where
  imageShape : List ℕ
  labelShape : List ℕ
  binMask : List Px
  trace : List Step
deriving DecidableEq

/-- `SegmentationDataset.__getitem__(index)`, with the state of the
instance passed in and returned: index the image path list, decode, index
the mask path list, decode, binarize the mask (lines 97-100), run the
stored pipeline jointly on image and mask, and shape the result.  The
returned dataset is the state of the instance after the access. -/
def SegmentationDataset.getitem (d : SegmentationDataset)
    (fs : String → Option Img) (rng : ℕ → ℚ) (index : ℕ) :
    Except ItemError ItemResult × SegmentationDataset :=
  (match d.image_paths[index]? with
   | none => .error .indexError
   | some ipath =>
     match fs ipath with
     | none => .error .imageReadError
     | some img =>
       match d.mask_paths[index]? with
       | none => .error .indexError
       | some mpath =>
         match fs mpath with
         | none => .error .maskReadError
         | some maskImg =>
           let bmask := binarize (bgr2rgb maskImg.pix)
           let st := (applyPipeline d.tfms rng
             (⟨(img.height, img.width), (maskImg.height, maskImg.width), []⟩, 0)).1
           .ok ⟨[3, st.imgDims.1, st.imgDims.2],
                [st.maskDims.1, st.maskDims.2], bmask, st.applied⟩,
   d)

/-! ### Claim theorems -/

/-- C1 (counterexample): the claim says every pixel that is not 0 across
all three channels maps to 255; the code thresholds each channel value
independently, so the pixel `(0, 5, 0)` maps to `(0, 255, 0)` and not to
`(255, 255, 255)` as the pixel-level reading demands. -/
theorem C1_counterexample :
    binarize [((0 : ℚ), 5, 0)] = [((0 : ℚ), 255, 0)] ∧
    specBinarizePixelwise [((0 : ℚ), 5, 0)] = [((255 : ℚ), 255, 255)] ∧
    binarize [((0 : ℚ), 5, 0)] ≠ specBinarizePixelwise [((0 : ℚ), 5, 0)] := by
  refine ⟨by decide, by decide, by decide⟩

/-- C1 (amended): binarization is element-wise over channel values: the
output equals the map of the per-channel threshold over the input, every
output channel value is 0 or 255, the all-zero pixel maps to the all-zero
pixel, and a channel value maps to 255 exactly when it is positive. -/
theorem C1_binarize_elementwise (m : List Px) :
    binarize m = m.map binPx ∧
    (∀ q ∈ binarize m,
      (q.1 = 0 ∨ q.1 = 255) ∧ (q.2.1 = 0 ∨ q.2.1 = 255) ∧ (q.2.2 = 0 ∨ q.2.2 = 255)) ∧
    binPx (0, 0, 0) = ((0 : ℚ), (0 : ℚ), (0 : ℚ)) ∧
    (∀ v : ℚ, binCh v = 255 ↔ 0 < v) := by
  refine ⟨binarize_eq_map m, ?_, by decide, ?_⟩
  · intro q hq
    rw [binarize_eq_map] at hq
    obtain ⟨p, _, rfl⟩ := List.mem_map.mp hq
    exact ⟨binCh_mem p.1, binCh_mem p.2.1, binCh_mem p.2.2⟩
  · intro v
    unfold binCh
    split
    · next h => simpa using h
    · next h => constructor <;> intro h' <;> [exact absurd h'.symm (by norm_num); exact absurd h' h]

/-- C1 witness: the amended theorem evaluated at the concrete mask
`[(0, 5, 0)]`. -/
theorem C1_binarize_elementwise_witness :
    binarize [((0 : ℚ), 5, 0)] = [((0 : ℚ), 255, 0)] := by
  rw [(C1_binarize_elementwise [((0 : ℚ), 5, 0)]).1]
  decide

/-- C5: binarization is idempotent, and a mask whose channel values are
already all in {0, 255} is returned unchanged. -/
theorem C5_binarize_idempotent (m : List Px) :
    binarize (binarize m) = binarize m ∧
    ((∀ p ∈ m,
        (p.1 = 0 ∨ p.1 = 255) ∧ (p.2.1 = 0 ∨ p.2.1 = 255) ∧ (p.2.2 = 0 ∨ p.2.2 = 255)) →
      binarize m = m) := by
  constructor
  · rw [binarize_eq_map, binarize_eq_map, List.map_map]
    refine List.map_congr_left fun p _ => ?_
    simp [Function.comp, binPx, binCh_idem]
  · intro h
    rw [binarize_eq_map]
    have hid : ∀ p ∈ m, binPx p = p := by
      intro p hp
      obtain ⟨h1, h2, h3⟩ := h p hp
      simp [binPx, binCh_fixed _ h1, binCh_fixed _ h2, binCh_fixed _ h3]
    rw [List.map_congr_left hid]
    exact List.map_id' m

/-- C5 witness: the idempotence theorem evaluated at the already-binary
mask `[(0, 255, 0)]`, discharging the membership hypothesis by computation. -/
theorem C5_binarize_idempotent_witness :
    binarize [((0 : ℚ), 255, 0)] = [((0 : ℚ), 255, 0)] :=
  (C5_binarize_idempotent [((0 : ℚ), 255, 0)]).2 (by decide)

/-- C8: an access through `__getitem__` leaves the instance state
unchanged: the dataset that comes back is the one that went in, and in
particular `class_values` still equals the value `set_class_values`
computed at construction, and the path lists are those given at
construction. -/
theorem C8_state_invariance (ip mp : List String) (tfms : List Transform)
    (lcl : List Px) (ctt ac : List String) (fs : String → Option Img)
    (rng : ℕ → ℚ) (index : ℕ) :
    ((mkSegmentationDataset ip mp tfms lcl ctt ac).getitem fs rng index).2 =
      mkSegmentationDataset ip mp tfms lcl ctt ac ∧
    ((mkSegmentationDataset ip mp tfms lcl ctt ac).getitem fs rng index).2.class_values =
      set_class_values ac ctt ∧
    ((mkSegmentationDataset ip mp tfms lcl ctt ac).getitem fs rng index).2.image_paths = ip ∧
    ((mkSegmentationDataset ip mp tfms lcl ctt ac).getitem fs rng index).2.mask_paths = mp :=
  ⟨rfl, rfl, rfl, rfl⟩

/-- C10: `collate_fn` on the empty sample list fails (modelled as `none`),
because `torch.stack` requires a non-empty tensor list. -/
theorem C10_collate_empty : collate_fn ([] : List (Tensor × Tensor)) = none := rfl

/-- C2 (counterexample): the claim says the rotation step is always
applied.  `A.Rotate(limit=25)` keeps the library default `p = 0.5`, so the
draw stream that returns 1/2 everywhere (a legal stream of values in
`[0, 1)`) fires no step named "Rotate": the whole train-pipeline trace is
Resize, PadIfNeeded, Normalize. -/
theorem C2_counterexample :
    ValidRng (fun _ => (1 : ℚ)/2) ∧
    ((applyPipeline (train_transforms (8, 6)) (fun _ => (1 : ℚ)/2)
        (⟨(5, 7), (5, 7), []⟩, 0)).1.applied.map Step.name)
      = ["Resize", "PadIfNeeded", "Normalize"] ∧
    ∀ s ∈ (applyPipeline (train_transforms (8, 6)) (fun _ => (1 : ℚ)/2)
        (⟨(5, 7), (5, 7), []⟩, 0)).1.applied, s.name ≠ "Rotate" := by
  refine ⟨fun i => by norm_num, ?_, ?_⟩
  · norm_num [applyPipeline, train_transforms, applyStep, resizeT, padIfNeededT,
      horizontalFlipT, randomBrightnessContrastT, rotateT, normalizeT]
  · norm_num [applyPipeline, train_transforms, applyStep, resizeT, padIfNeededT,
      horizontalFlipT, randomBrightnessContrastT, rotateT, normalizeT]
    decide

/-- C2 (amended): the train pipeline's fifth step is the rotation
transform; it is gated by probability 1/2 (not always applied), and when
it fires its angle is `-25 + 50·u` for the uniform draw `u ∈ [0, 1)`,
hence drawn uniformly in `[-25, 25)`. -/
theorem C2_rotate_gated (sz : ℕ × ℕ) (a : ℚ) (h0 : 0 ≤ a) (h1 : a < 1) :
    (train_transforms sz)[4]? = some (rotateT 25) ∧
    (rotateT 25).p = 1/2 ∧
    (rotateT 25).alwaysApply = false ∧
    (rotateT 25).mkParams (fun _ => a) = [-25 + 50 * a] ∧
    -25 ≤ -25 + 50 * a ∧ -25 + 50 * a < 25 := by
  refine ⟨rfl, rfl, rfl, ?_, by linarith, by linarith⟩
  show [-25 + 2 * 25 * a] = [-25 + 50 * a]
  norm_num

/-- C2 witness: the amended theorem evaluated at draw 1/2, giving angle 0. -/
theorem C2_rotate_gated_witness :
    (train_transforms (8, 6))[4]? = some (rotateT 25) ∧
    (rotateT 25).p = 1/2 ∧
    (rotateT 25).alwaysApply = false ∧
    (rotateT 25).mkParams (fun _ => (1 : ℚ)/2) = [-25 + 50 * ((1 : ℚ)/2)] ∧
    -25 ≤ -25 + 50 * ((1 : ℚ)/2) ∧ -25 + 50 * ((1 : ℚ)/2) < 25 :=
  C2_rotate_gated (8, 6) ((1 : ℚ)/2) (by norm_num) (by norm_num)

/-- C3: the validation pipeline is deterministic: two runs on the same
input with any two legal draw streams produce the same output state
(dimensions of image and mask, and the full transform trace). -/
theorem C3_valid_deterministic (sz : ℕ × ℕ) (s : AugState)
    (rng1 rng2 : ℕ → ℚ) (h1 : ValidRng rng1) (h2 : ValidRng rng2) :
    (applyPipeline (valid_transforms sz) rng1 (s, 0)).1 =
    (applyPipeline (valid_transforms sz) rng2 (s, 0)).1 := by
  simp [applyPipeline, valid_transforms, applyStep, resizeT, padIfNeededT,
    normalizeT, (h1 1).2, (h1 2).2, (h2 1).2, (h2 2).2]

/-- C3 witness: the determinism theorem evaluated on two concrete draw
streams. -/
theorem C3_valid_deterministic_witness :
    (applyPipeline (valid_transforms (8, 6)) (fun _ => 0)
      (⟨(5, 7), (5, 7), []⟩, 0)).1 =
    (applyPipeline (valid_transforms (8, 6)) (fun _ => (1 : ℚ)/2)
      (⟨(5, 7), (5, 7), []⟩, 0)).1 :=
  C3_valid_deterministic (8, 6) ⟨(5, 7), (5, 7), []⟩ (fun _ => 0)
    (fun _ => (1 : ℚ)/2) (fun i => by norm_num) (fun i => by norm_num)

/-- C4: for a target `img_size = (width, height)` and any input image and
mask dimensions, both the train and the validation pipeline output image
and mask with the identical fixed dimensions `(height + 4, width + 4)`,
for every legal draw stream. -/
theorem C4_fixed_output_dims (w h : ℕ) (s : AugState) (rng : ℕ → ℚ)
    (hr : ValidRng rng) :
    ((applyPipeline (train_transforms (w, h)) rng (s, 0)).1.imgDims = (h + 4, w + 4) ∧
     (applyPipeline (train_transforms (w, h)) rng (s, 0)).1.maskDims = (h + 4, w + 4)) ∧
    ((applyPipeline (valid_transforms (w, h)) rng (s, 0)).1.imgDims = (h + 4, w + 4) ∧
     (applyPipeline (valid_transforms (w, h)) rng (s, 0)).1.maskDims = (h + 4, w + 4)) := by
  have hmaxh : max h (h + 4) = h + 4 := Nat.max_eq_right (Nat.le_add_right h 4)
  have hmaxw : max w (w + 4) = w + 4 := Nat.max_eq_right (Nat.le_add_right w 4)
  constructor
  · have hrest : ∀ t ∈ [horizontalFlipT, randomBrightnessContrastT, rotateT 25,
        normalizeT], ∀ d, t.applyDims d = d := by
      intro t ht d
      fin_cases ht
      all_goals rfl
    have unfoldT : applyPipeline (train_transforms (w, h)) rng (s, 0) =
        applyPipeline [horizontalFlipT, randomBrightnessContrastT, rotateT 25,
          normalizeT] rng
          (applyStep (padIfNeededT (h + 4) (w + 4)) rng
            (applyStep (resizeT h w) rng (s, 0))) := rfl
    rw [unfoldT]
    obtain ⟨ki, km⟩ := applyPipeline_dims_id _ hrest rng
      (applyStep (padIfNeededT (h + 4) (w + 4)) rng (applyStep (resizeT h w) rng (s, 0)))
    rw [ki, km]
    simp [applyStep, resizeT, padIfNeededT, (hr 1).2, hmaxh, hmaxw]
  · have hrest : ∀ t ∈ [normalizeT], ∀ d, t.applyDims d = d := by
      intro t ht d
      fin_cases ht
      all_goals rfl
    have unfoldV : applyPipeline (valid_transforms (w, h)) rng (s, 0) =
        applyPipeline [normalizeT] rng
          (applyStep (padIfNeededT (h + 4) (w + 4)) rng
            (applyStep (resizeT h w) rng (s, 0))) := rfl
    rw [unfoldV]
    obtain ⟨ki, km⟩ := applyPipeline_dims_id _ hrest rng
      (applyStep (padIfNeededT (h + 4) (w + 4)) rng (applyStep (resizeT h w) rng (s, 0)))
    rw [ki, km]
    simp [applyStep, resizeT, padIfNeededT, (hr 1).2, hmaxh, hmaxw]

/-- C4 witness: the fixed-dimension theorem evaluated with target size
`(8, 6)`, input dimensions `(5, 7)`, and the all-zero draw stream. -/
theorem C4_fixed_output_dims_witness :
    ((applyPipeline (train_transforms (8, 6)) (fun _ => 0)
        (⟨(5, 7), (5, 7), []⟩, 0)).1.imgDims = (10, 12) ∧
     (applyPipeline (train_transforms (8, 6)) (fun _ => 0)
        (⟨(5, 7), (5, 7), []⟩, 0)).1.maskDims = (10, 12)) ∧
    ((applyPipeline (valid_transforms (8, 6)) (fun _ => 0)
        (⟨(5, 7), (5, 7), []⟩, 0)).1.imgDims = (10, 12) ∧
     (applyPipeline (valid_transforms (8, 6)) (fun _ => 0)
        (⟨(5, 7), (5, 7), []⟩, 0)).1.maskDims = (10, 12)) :=
  C4_fixed_output_dims 8 6 ⟨(5, 7), (5, 7), []⟩ (fun _ => 0)
    (fun i => by norm_num)

/-- C6: `get_images` returns four lists, each sorted ascending by the full
path string and each of the same length as the corresponding glob result. -/
theorem C6_get_images_sorted (ti tm vi vm : List String) :
    List.Sorted (· ≤ ·) (get_images ti tm vi vm).1 ∧
    (get_images ti tm vi vm).1.length = ti.length ∧
    List.Sorted (· ≤ ·) (get_images ti tm vi vm).2.1 ∧
    (get_images ti tm vi vm).2.1.length = tm.length ∧
    List.Sorted (· ≤ ·) (get_images ti tm vi vm).2.2.1 ∧
    (get_images ti tm vi vm).2.2.1.length = vi.length ∧
    List.Sorted (· ≤ ·) (get_images ti tm vi vm).2.2.2 ∧
    (get_images ti tm vi vm).2.2.2.length = vm.length := by
  refine ⟨?_, ?_, ?_, ?_, ?_, ?_, ?_, ?_⟩ <;>
    first
      | exact List.sorted_insertionSort _ _
      | exact List.length_insertionSort _ _

/-- C7: stacking K same-shape samples of image shape `[C, H, W]` and label
shape `[H, W]` yields the pair keyed 0 and 1 with shapes `[K, C, H, W]` and
`[K, H, W]`, data concatenated in the order the samples were given; any
shape disagreement across the sequence makes `collate_fn` fail. -/
theorem C7_collate_shapes :
    (∀ (inputs : List (Tensor × Tensor)) (c h w : ℕ), inputs ≠ [] →
      (∀ s ∈ inputs, s.1.shape = [c, h, w] ∧ s.2.shape = [h, w]) →
      collate_fn inputs =
        some (⟨inputs.length :: [c, h, w], (inputs.map (fun s => s.1.data)).flatten⟩,
              ⟨inputs.length :: [h, w], (inputs.map (fun s => s.2.data)).flatten⟩)) ∧
    (∀ (inputs : List (Tensor × Tensor)),
      (∃ a ∈ inputs, ∃ b ∈ inputs, a.1.shape ≠ b.1.shape ∨ a.2.shape ≠ b.2.shape) →
      collate_fn inputs = none) := by
  constructor
  · intro inputs c h w hne hsh
    have h1 : Tensor.stack (inputs.map Prod.fst) =
        some ⟨(inputs.map Prod.fst).length :: [c, h, w],
              ((inputs.map Prod.fst).map Tensor.data).flatten⟩ := by
      refine stack_of_all_shape (by simpa using hne) ?_
      intro t ht
      obtain ⟨s, hs, rfl⟩ := List.mem_map.mp ht
      exact (hsh s hs).1
    have h2 : Tensor.stack (inputs.map Prod.snd) =
        some ⟨(inputs.map Prod.snd).length :: [h, w],
              ((inputs.map Prod.snd).map Tensor.data).flatten⟩ := by
      refine stack_of_all_shape (by simpa using hne) ?_
      intro t ht
      obtain ⟨s, hs, rfl⟩ := List.mem_map.mp ht
      exact (hsh s hs).2
    simp only [collate_fn, h1, h2, List.length_map, List.map_map]
    rfl
  · intro inputs hmis
    obtain ⟨a, ha, b, hb, hab⟩ := hmis
    rcases hab with h | h
    · have hstk : Tensor.stack (inputs.map Prod.fst) = none := by
        cases hs : Tensor.stack (inputs.map Prod.fst) with
        | none => rfl
        | some t =>
          exact absurd (stack_some_shape_eq hs a.1 (List.mem_map_of_mem _ ha)
            b.1 (List.mem_map_of_mem _ hb)) h
      simp [collate_fn, hstk]
    · have hstk : Tensor.stack (inputs.map Prod.snd) = none := by
        cases hs : Tensor.stack (inputs.map Prod.snd) with
        | none => rfl
        | some t =>
          exact absurd (stack_some_shape_eq hs a.2 (List.mem_map_of_mem _ ha)
            b.2 (List.mem_map_of_mem _ hb)) h
      cases hs : Tensor.stack (inputs.map Prod.fst) <;> simp [collate_fn, hs, hstk]

/-- C7 witness: two samples of image shape `[1, 2, 2]` and label shape
`[2, 2]` collate to shapes `[2, 1, 2, 2]` and `[2, 2, 2]`, data in order. -/
theorem C7_collate_shapes_witness :
    collate_fn [(⟨[1, 2, 2], [1, 2, 3, 4]⟩, ⟨[2, 2], [0, 1, 2, 3]⟩),
                (⟨[1, 2, 2], [5, 6, 7, 8]⟩, ⟨[2, 2], [4, 5, 6, 7]⟩)] =
      some (⟨[2, 1, 2, 2], [1, 2, 3, 4, 5, 6, 7, 8]⟩,
            ⟨[2, 2, 2], [0, 1, 2, 3, 4, 5, 6, 7]⟩) := by
  have h := C7_collate_shapes.1
    [(⟨[1, 2, 2], [1, 2, 3, 4]⟩, ⟨[2, 2], [0, 1, 2, 3]⟩),
     (⟨[1, 2, 2], [5, 6, 7, 8]⟩, ⟨[2, 2], [4, 5, 6, 7]⟩)] 1 2 2
    (by simp) (by decide)
  simpa using h

/-- C9: the length of a dataset is the length of its image path list alone;
construction with a shorter mask list succeeds (the lists are stored as
given, with no validation); and an access at an index that is valid for the
image list but at or beyond the mask list's length fails with the indexing
error, provided the image file itself decodes. -/
theorem C9_len_ignores_masks (ip mp : List String) (tfms : List Transform)
    (lcl : List Px) (ctt ac : List String) (fs : String → Option Img)
    (rng : ℕ → ℚ) (index : ℕ)
    (hfs : ∀ p, (fs p).isSome)
    (hmp : mp.length ≤ index) (hip : index < ip.length) :
    (mkSegmentationDataset ip mp tfms lcl ctt ac).len = ip.length ∧
    (mkSegmentationDataset ip mp tfms lcl ctt ac).image_paths = ip ∧
    (mkSegmentationDataset ip mp tfms lcl ctt ac).mask_paths = mp ∧
    ((mkSegmentationDataset ip mp tfms lcl ctt ac).getitem fs rng index).1 =
      .error .indexError := by
  refine ⟨rfl, rfl, rfl, ?_⟩
  have h1 : ip[index]? = some ip[index] := List.getElem?_eq_getElem hip
  have h2 : mp[index]? = none := List.getElem?_eq_none hmp
  obtain ⟨img, himg⟩ := Option.isSome_iff_exists.mp (hfs ip[index])
  simp [SegmentationDataset.getitem, mkSegmentationDataset, h1, h2, himg]

/-- C9 witness: a dataset with two image paths and one mask path has
length 2, and the access at index 1 raises the indexing error. -/
theorem C9_len_ignores_masks_witness :
    (mkSegmentationDataset ["a", "b"] ["a"] [] [] [] []).len = 2 ∧
    (mkSegmentationDataset ["a", "b"] ["a"] [] [] [] []).image_paths = ["a", "b"] ∧
    (mkSegmentationDataset ["a", "b"] ["a"] [] [] [] []).mask_paths = ["a"] ∧
    ((mkSegmentationDataset ["a", "b"] ["a"] [] [] [] []).getitem
        (fun _ => some ⟨1, 1, [(0, 0, 0)]⟩) (fun _ => 0) 1).1 = .error .indexError :=
  C9_len_ignores_masks ["a", "b"] ["a"] [] [] [] []
    (fun _ => some ⟨1, 1, [(0, 0, 0)]⟩) (fun _ => 0) 1
    (fun _ => rfl) (by decide) (by decide)

end Datasets
